import Mathlib

/-!
# Deep research workflow: shallow embedding

A shallow embedding of the iterative "deep research" workflow
(`research_workflow.py`, `gemini_client.py`, `exa_client.py`,
`models.py`) and proofs of the specification claims about it.

The external collaborators (the Gemini model calls, the Exa search
call) are modelled by an environment: each call site's outcome is a
value of `ModelCall` (the call raised, returned unparseable text, or
returned a value parsing to the given result) or, for search, an
`Except Unit` (raised or returned a hit list).  The workflow functions
are translated statement by statement from the Python source.
-/

namespace DeepResearch

/-- Outcome of one model-backed collaborator call, as seen by the
wrapper in `gemini_client.py`: the underlying call raised (a transient
network/model error, re-raised by `GeminiClient._call_model`), the call
returned text that fails JSON parsing (`json.JSONDecodeError` /
`KeyError`), or the call returned text parsing to `v`. -/
inductive ModelCall (α : Type) where
  | raised : ModelCall α
  | unparseable : ModelCall α
  | parsed : α → ModelCall α
deriving DecidableEq

/-- `models.SearchResult`: one search hit from Exa.  The source's
`score: Optional[float]` is only ever copied, never computed with, so
any type with decidable equality models it faithfully; we use `Int`. -/
structure SearchResult where
  url : String
  title : String
  content : String
  published_date : Option String := none
  score : Option Int := none
deriving DecidableEq

/-- `models.SummaryResult`: a summarized, relevance-judged piece of
content. -/
structure SummaryResult where
  url : String
  relevance_score : Int
  is_relevant : Bool
  summary : String
  key_insights : List String
  search_query : String
deriving DecidableEq

/-- The dict returned by one summarizer model call, with each field
holding the value `response.get(key, default)` returns in
`DeepResearchWorkflow._execute_iteration` (the structure's defaults
are the `.get` defaults, so a dict missing a key is the structure with
that field at its default). -/
structure SummaryDict where
  url : String := ""
  relevance_score : Int := 0
  is_relevant : Bool := false
  summary : String := ""
  key_insights : List String := []
deriving DecidableEq

/-- The synthesis dict produced by `GeminiClient.synthesize_research`
(and consumed via `.get` in the workflow).  `confidence_score` and
`needs_more_research` hold what the workflow's
`.get('confidence_score', 0)` / `.get('needs_more_research', False)`
return.  `total_iterations` and `total_sources` are the metadata keys
`_create_final_synthesis` adds to the final synthesis dict (`none` =
key absent); the wall-clock `research_timestamp` key is not modelled.
The source's `confidence_score` travels through a `float` field of the
report but is only copied, never computed with, so `Int` models it. -/
structure SynthDict where
  executive_summary : String := ""
  key_findings : List String := []
  perspectives : List String := []
  implications : String := ""
  information_gaps : List String := []
  confidence_score : Int := 0
  needs_more_research : Bool := false
  total_iterations : Option Nat := none
  total_sources : Option Nat := none
deriving DecidableEq

/-- `models.ResearchIteration`: one complete research iteration. -/
structure ResearchIteration where
  iteration_number : Nat
  queries : List String
  search_results : List SearchResult
  summaries : List SummaryResult
  synthesis_result : SynthDict
deriving DecidableEq

/-- `models.FinalResearchReport` (without its `to_dict`, defined
below). -/
structure FinalResearchReport where
  original_query : String
  iterations : List ResearchIteration
  final_synthesis : SynthDict
  total_sources : Nat
  confidence_score : Int
deriving DecidableEq

/-- The entry appended to `all_summaries` in
`DeepResearchWorkflow._create_final_synthesis`: a relevant summary
tagged with its source iteration number. -/
structure FinalSummaryEntry where
  url : String
  relevance_score : Int
  summary : String
  key_insights : List String
  iteration : Nat
deriving DecidableEq

/-- Environment of one iteration's collaborator calls: the query
generation model call, each query's search call (`Except.error` = the
Exa call raised), each `(search_query, url, content)` triple's
summarizer call, and the synthesizer call as a function of the
summaries fed to it. -/
structure IterEnv where
  expand : ModelCall (List String)
  search : String → Except Unit (List SearchResult)
  summarize : String × String × String → ModelCall SummaryDict
  synth : List SummaryDict → ModelCall SynthDict

/-- Environment of a whole run: iteration `k`'s environment, plus the
final cross-iteration synthesizer call. -/
structure RunEnv where
  iters : Nat → IterEnv
  finalSynth : List FinalSummaryEntry → ModelCall SynthDict

/-- `GeminiClient.generate_queries`: parse failure falls back to three
derived queries; a raising model call propagates (only
`json.JSONDecodeError` and `KeyError` are caught); on success the
`'queries'` field (default `[]`) is returned. -/
def generate_queries (call : ModelCall (List String)) (original_query : String) :
    Except Unit (List String) :=
  match call with
  | .raised => .error ()
  | .unparseable =>
      .ok [original_query,
           "comprehensive analysis of " ++ original_query,
           "latest research on " ++ original_query]
  | .parsed qs => .ok qs

/-- `GeminiClient.synthesize_research`: parse failure degrades to the
explicit low-confidence dict; a raising model call propagates. -/
def synthesize_research (call : ModelCall SynthDict) : Except Unit SynthDict :=
  match call with
  | .raised => .error ()
  | .unparseable =>
      .ok { executive_summary := "Error in synthesis",
            key_findings := [],
            perspectives := [],
            implications := "Unable to synthesize due to parsing error",
            information_gaps := ["Synthesis failed"],
            confidence_score := 1,
            needs_more_research := true }
  | .parsed d => .ok d

/-- `ExaClient.search_single_query`: every exception is caught and
degraded to the empty hit list. -/
def search_single_query (outcome : Except Unit (List SearchResult)) : List SearchResult :=
  match outcome with
  | .error _ => []
  | .ok hits => hits

/-- Python dict assignment `d[k] = v` on an insertion-ordered
association list: replace in place if the key is present, else append. -/
def dictInsert (d : List (String × List SearchResult)) (k : String)
    (v : List SearchResult) : List (String × List SearchResult) :=
  match d with
  | [] => [(k, v)]
  | (k₁, v₁) :: rest =>
      if k₁ = k then (k, v) :: rest else (k₁, v₁) :: dictInsert rest k v

/-- `ExaClient.search_multiple_queries`: one search per query (each
independently degraded by `search_single_query`; `asyncio.gather`'s
exception slots are likewise degraded to `[]`), results collected into
an insertion-ordered dict keyed by query. -/
def search_multiple_queries (search : String → Except Unit (List SearchResult))
    (queries : List String) : List (String × List SearchResult) :=
  queries.foldl (fun d q => dictInsert d q (search_single_query (search q))) []

/-- `ExaClient.flatten_search_results`: flatten the dict into
`(query, url, content)` triples. -/
def flatten_search_results (d : List (String × List SearchResult)) :
    List (String × String × String) :=
  d.flatMap fun qr => qr.2.map fun r => (qr.1, r.url, r.content)

/-- `GeminiClient.batch_summarize`: one summarizer call per triple; a
raising call is absorbed by `asyncio.gather(..., return_exceptions=True)`
and filtered out, a parse failure returns `None` and is filtered out;
only dict results are kept, in order. -/
def batch_summarize (summarize : String × String × String → ModelCall SummaryDict)
    (triples : List (String × String × String)) : List SummaryDict :=
  triples.filterMap fun t =>
    match summarize t with
    | .parsed d => some d
    | _ => none

/-- The `summaries` loop of `DeepResearchWorkflow._execute_iteration`:
keep a response iff it is truthy and `response.get('is_relevant',
False)` holds (an empty dict is falsy but also has `is_relevant` at
its default `false`, so the truthiness test adds nothing), and build
the stored `SummaryResult` from the response's fields with
`search_query` left empty. -/
def summariesFrom (responses : List SummaryDict) : List SummaryResult :=
  (responses.filter fun r => r.is_relevant).map fun r =>
    { url := r.url,
      relevance_score := r.relevance_score,
      is_relevant := r.is_relevant,
      summary := r.summary,
      key_insights := r.key_insights,
      search_query := "" }

/-- The summaries produced by one iteration (the unfiltered
`summary_responses` list): searches fanned out over the expanded
queries, flattened, then summarized in a batch. -/
def producedSummaries (ienv : IterEnv) (queries : List String) : List SummaryDict :=
  batch_summarize ienv.summarize
    (flatten_search_results (search_multiple_queries ienv.search queries))

/-- `DeepResearchWorkflow._execute_iteration`: expand, fan-out search,
flatten, batch-summarize, filter relevant summaries for storage, and
synthesize over all produced summaries. -/
def execute_iteration (ienv : IterEnv) (original_query : String)
    (iteration_number : Nat) : Except Unit ResearchIteration :=
  match generate_queries ienv.expand original_query with
  | .error e => .error e
  | .ok queries =>
      let search_results_dict := search_multiple_queries ienv.search queries
      let all_search_results := (search_results_dict.map Prod.snd).flatten
      let summary_responses :=
        batch_summarize ienv.summarize (flatten_search_results search_results_dict)
      let summaries := summariesFrom summary_responses
      match synthesize_research (ienv.synth summary_responses) with
      | .error e => .error e
      | .ok synthesis_result =>
          .ok { iteration_number := iteration_number,
                queries := queries,
                search_results := all_search_results,
                summaries := summaries,
                synthesis_result := synthesis_result }

/-- The stop condition checked after each iteration in
`DeepResearchWorkflow.research`: `confidence >= 7 and not needs_more`. -/
def stopCond (it : ResearchIteration) : Prop :=
  7 ≤ it.synthesis_result.confidence_score ∧
    it.synthesis_result.needs_more_research = false

instance (it : ResearchIteration) : Decidable (stopCond it) := by
  unfold stopCond; infer_instance

/-- The `while iteration_count < max` loop of
`DeepResearchWorkflow.research`, with the remaining loop capacity as
structural fuel (at the top call `fuel = max_iterations` and
`count = 0`; every entry maintains `fuel + count = max_iterations`, so
`0 < fuel` is exactly the `while` guard `count < max_iterations`). -/
def researchLoop (env : RunEnv) (q : String) (max_iterations : Nat) :
    Nat → Nat → List ResearchIteration → Except Unit (List ResearchIteration)
  | 0, _, acc => .ok acc
  | fuel + 1, count, acc =>
      match execute_iteration (env.iters (count + 1)) q (count + 1) with
      | .error e => .error e
      | .ok it =>
          let acc' := acc ++ [it]
          if stopCond it then .ok acc'
          else if max_iterations ≤ count + 1 then .ok acc'
          else researchLoop env q max_iterations fuel (count + 1) acc'

/-- The `all_summaries` list of
`DeepResearchWorkflow._create_final_synthesis`: every stored (hence
relevant) summary of every iteration, tagged with its iteration
number. -/
def collectAllSummaries (iters : List ResearchIteration) : List FinalSummaryEntry :=
  iters.flatMap fun it => it.summaries.map fun s =>
    { url := s.url,
      relevance_score := s.relevance_score,
      summary := s.summary,
      key_insights := s.key_insights,
      iteration := it.iteration_number }

/-- `DeepResearchWorkflow._create_final_synthesis`: synthesize over the
collected relevant summaries, then add the metadata keys. -/
def create_final_synthesis (env : RunEnv) (original_query : String)
    (iters : List ResearchIteration) : Except Unit SynthDict :=
  let all_summaries := collectAllSummaries iters
  match synthesize_research (env.finalSynth all_summaries) with
  | .error e => .error e
  | .ok syn =>
      .ok { syn with total_iterations := some iters.length,
                     total_sources := some all_summaries.length }

/-- `DeepResearchWorkflow.research`: run the iteration loop, create the
final synthesis, total the per-iteration hit counts, assemble the
report. -/
def research (env : RunEnv) (original_query : String) (max_iterations : Nat) :
    Except Unit FinalResearchReport :=
  match researchLoop env original_query max_iterations max_iterations 0 [] with
  | .error e => .error e
  | .ok iters =>
      match create_final_synthesis env original_query iters with
      | .error e => .error e
      | .ok final_synthesis =>
          .ok { original_query := original_query,
                iterations := iters,
                final_synthesis := final_synthesis,
                total_sources := (iters.map fun it => it.search_results.length).sum,
                confidence_score := final_synthesis.confidence_score }

/-! ## Basic lemmas about one iteration -/

/-- Inversion for a successful iteration: the record's fields in terms
of the expanded queries. -/
theorem execute_iteration_ok_elim (ienv : IterEnv) (q : String) (k : Nat)
    (it : ResearchIteration) (h : execute_iteration ienv q k = .ok it) :
    ∃ qs, generate_queries ienv.expand q = .ok qs ∧
      synthesize_research (ienv.synth (producedSummaries ienv qs)) =
        .ok it.synthesis_result ∧
      it = { iteration_number := k,
             queries := qs,
             search_results :=
               ((search_multiple_queries ienv.search qs).map Prod.snd).flatten,
             summaries := summariesFrom (producedSummaries ienv qs),
             synthesis_result := it.synthesis_result } := by
  unfold execute_iteration at h
  cases hq : generate_queries ienv.expand q with
  | error e => rw [hq] at h; exact absurd h (by simp)
  | ok qs =>
      rw [hq] at h
      simp only at h
      cases hs : synthesize_research
          (ienv.synth (batch_summarize ienv.summarize
            (flatten_search_results (search_multiple_queries ienv.search qs)))) with
      | error e => rw [hs] at h; exact absurd h (by simp)
      | ok syn =>
          rw [hs] at h
          simp only [Except.ok.injEq] at h
          subst h
          exact ⟨qs, rfl, by simpa [producedSummaries] using hs,
                 by simp [producedSummaries]⟩

/-- A successful iteration carries the iteration number it was invoked
with. -/
theorem execute_iteration_ok_number (ienv : IterEnv) (q : String) (k : Nat)
    (it : ResearchIteration) (h : execute_iteration ienv q k = .ok it) :
    it.iteration_number = k := by
  obtain ⟨qs, _, _, hit⟩ := execute_iteration_ok_elim ienv q k it h
  rw [hit]

/-- Every summary built by the storage filter is marked relevant and
has an empty originating query. -/
theorem summariesFrom_relevant (responses : List SummaryDict)
    (s : SummaryResult) (hs : s ∈ summariesFrom responses) :
    s.is_relevant = true ∧ s.search_query = "" := by
  unfold summariesFrom at hs
  obtain ⟨r, hr, hsr⟩ := List.mem_map.mp hs
  have hrel : r.is_relevant = true := (List.mem_filter.mp hr).2
  constructor
  · rw [← hsr]; exact hrel
  · rw [← hsr]

/-- Every summary stored in a successful iteration is marked relevant
and has an empty originating query. -/
theorem execute_iteration_summaries (ienv : IterEnv) (q : String) (k : Nat)
    (it : ResearchIteration) (h : execute_iteration ienv q k = .ok it) :
    ∀ s ∈ it.summaries, s.is_relevant = true ∧ s.search_query = "" := by
  obtain ⟨qs, _, _, hit⟩ := execute_iteration_ok_elim ienv q k it h
  intro s hs
  rw [hit] at hs
  exact summariesFrom_relevant _ s hs

/-- `generate_queries` succeeds exactly when the model call did not
raise. -/
theorem generate_queries_ok_of_ne_raised (call : ModelCall (List String))
    (q : String) (h : call ≠ ModelCall.raised) :
    ∃ qs, generate_queries call q = .ok qs := by
  cases call with
  | raised => exact absurd rfl h
  | unparseable => exact ⟨_, rfl⟩
  | parsed qs => exact ⟨qs, rfl⟩

/-- `synthesize_research` succeeds exactly when the model call did not
raise. -/
theorem synthesize_research_ok_of_ne_raised (call : ModelCall SynthDict)
    (h : call ≠ ModelCall.raised) :
    ∃ d, synthesize_research call = .ok d := by
  cases call with
  | raised => exact absurd rfl h
  | unparseable => exact ⟨_, rfl⟩
  | parsed d => exact ⟨d, rfl⟩

/-- An iteration whose expansion and synthesis calls do not raise
always completes, whatever the search and summarizer calls do. -/
theorem execute_iteration_ok_of_ne_raised (ienv : IterEnv) (q : String) (k : Nat)
    (hexp : ienv.expand ≠ ModelCall.raised)
    (hsyn : ∀ xs, ienv.synth xs ≠ ModelCall.raised) :
    ∃ it, execute_iteration ienv q k = .ok it := by
  obtain ⟨qs, hq⟩ := generate_queries_ok_of_ne_raised ienv.expand q hexp
  obtain ⟨d, hd⟩ := synthesize_research_ok_of_ne_raised
    (ienv.synth (producedSummaries ienv qs)) (hsyn _)
  rw [producedSummaries] at hd
  simp only [execute_iteration, hq, hd]
  exact ⟨_, rfl⟩

/-! ## The iteration loop -/

/-- An index into `acc ++ [it]` hits either the prefix or the new last
element. -/
theorem get_snoc_cases {α : Type} (acc : List α) (it : α) (i : Nat)
    (h : i < (acc ++ [it]).length) :
    (∃ h2 : i < acc.length, (acc ++ [it]).get ⟨i, h⟩ = acc.get ⟨i, h2⟩) ∨
    (i = acc.length ∧ (acc ++ [it]).get ⟨i, h⟩ = it) := by
  by_cases hi : i < acc.length
  · exact Or.inl ⟨hi, List.get_append i hi⟩
  · have hieq : i = acc.length := by
      simp only [List.length_append, List.length_singleton] at h
      omega
    subst hieq
    exact Or.inr ⟨rfl, List.get_of_append rfl rfl⟩

/-- The conclusions of `researchLoop_ok_spec` for a loop exit that
returns `acc ++ [it]` (either stop branch). -/
theorem researchLoop_exit_spec (env : RunEnv) (q : String) (m count : Nat)
    (acc : List ResearchIteration) (it : ResearchIteration)
    (hlen : acc.length = count)
    (hnum : ∀ i (h : i < acc.length), (acc.get ⟨i, h⟩).iteration_number = i + 1)
    (hnostop : ∀ i (h : i < acc.length), ¬ stopCond (acc.get ⟨i, h⟩))
    (hexec : ∀ i (h : i < acc.length),
      execute_iteration (env.iters (i + 1)) q (i + 1) = .ok (acc.get ⟨i, h⟩))
    (hit : execute_iteration (env.iters (count + 1)) q (count + 1) = .ok it)
    (hle : count + 1 ≤ m)
    (hlast : stopCond it ∨ count + 1 = m) :
    acc.length ≤ (acc ++ [it]).length ∧
    (acc ++ [it]).length ≤ m ∧
    acc.length < (acc ++ [it]).length ∧
    (∀ i (h : i < (acc ++ [it]).length),
      ((acc ++ [it]).get ⟨i, h⟩).iteration_number = i + 1) ∧
    (∀ i (h : i < (acc ++ [it]).length),
      execute_iteration (env.iters (i + 1)) q (i + 1) = .ok ((acc ++ [it]).get ⟨i, h⟩)) ∧
    (∀ i (h : i < (acc ++ [it]).length), i + 1 < (acc ++ [it]).length →
      ¬ stopCond ((acc ++ [it]).get ⟨i, h⟩)) ∧
    (∀ (h : acc ++ [it] ≠ []),
      stopCond ((acc ++ [it]).getLast h) ∨ (acc ++ [it]).length = m) := by
  have hitnum : it.iteration_number = count + 1 :=
    execute_iteration_ok_number _ _ _ _ hit
  have hL : (acc ++ [it]).length = acc.length + 1 := by simp
  refine ⟨by omega, by omega, by omega, ?_, ?_, ?_, ?_⟩
  · intro i h
    rcases get_snoc_cases acc it i h with ⟨h2, hg⟩ | ⟨hi, hg⟩
    · rw [hg]; exact hnum i h2
    · rw [hg, hitnum]; omega
  · intro i h
    rcases get_snoc_cases acc it i h with ⟨h2, hg⟩ | ⟨hi, hg⟩
    · rw [hg]; exact hexec i h2
    · rw [hg, hi, hlen]; exact hit
  · intro i h hlt
    have h2 : i < acc.length := by omega
    rcases get_snoc_cases acc it i h with ⟨h3, hg⟩ | ⟨hi, hg⟩
    · rw [hg]; exact hnostop i h3
    · omega
  · intro h
    rw [List.getLast_append]
    rcases hlast with hstop | hm
    · exact Or.inl hstop
    · exact Or.inr (by omega)

/-- Master invariant of the research loop: starting from an
accumulator of `count` correctly-numbered, non-stopping,
engine-produced iterations with `fuel + count = m` (as at the top
call), a successful loop returns a list of at most `m` iterations,
extending the accumulator, numbered contiguously from 1, each produced
by `execute_iteration`, where no iteration but the last satisfies the
stop condition and the last satisfies it or the loop exhausted the
iteration bound. -/
theorem researchLoop_ok_spec (env : RunEnv) (q : String) (m : Nat) :
    ∀ (fuel count : Nat) (acc l : List ResearchIteration),
      researchLoop env q m fuel count acc = .ok l →
      fuel + count = m →
      acc.length = count →
      (∀ i (h : i < acc.length), (acc.get ⟨i, h⟩).iteration_number = i + 1) →
      (∀ i (h : i < acc.length), ¬ stopCond (acc.get ⟨i, h⟩)) →
      (∀ i (h : i < acc.length),
        execute_iteration (env.iters (i + 1)) q (i + 1) = .ok (acc.get ⟨i, h⟩)) →
      acc.length ≤ l.length ∧
      l.length ≤ m ∧
      (0 < fuel → acc.length < l.length) ∧
      (∀ i (h : i < l.length), (l.get ⟨i, h⟩).iteration_number = i + 1) ∧
      (∀ i (h : i < l.length),
        execute_iteration (env.iters (i + 1)) q (i + 1) = .ok (l.get ⟨i, h⟩)) ∧
      (∀ i (h : i < l.length), i + 1 < l.length → ¬ stopCond (l.get ⟨i, h⟩)) ∧
      (0 < fuel → ∀ (h : l ≠ []), stopCond (l.getLast h) ∨ l.length = m) := by
  intro fuel
  induction fuel with
  | zero =>
      intro count acc l heq hfc hlen hnum hnostop hexec
      simp only [researchLoop, Except.ok.injEq] at heq
      subst heq
      refine ⟨le_refl _, by omega, ?_, hnum, hexec, fun i h _ => hnostop i h, ?_⟩
      · intro h0; exact absurd h0 (lt_irrefl 0)
      · intro h0; exact absurd h0 (lt_irrefl 0)
  | succ fuel ih =>
      intro count acc l heq hfc hlen hnum hnostop hexec
      rw [researchLoop] at heq
      cases hit : execute_iteration (env.iters (count + 1)) q (count + 1) with
      | error e => rw [hit] at heq; exact absurd heq (by simp)
      | ok it =>
          rw [hit] at heq
          simp only at heq
          by_cases hstop : stopCond it
          · rw [if_pos hstop] at heq
            injection heq with h
            subst h
            have hres := researchLoop_exit_spec env q m count acc it hlen hnum
              hnostop hexec hit (by omega) (Or.inl hstop)
            exact ⟨hres.1, hres.2.1, fun _ => hres.2.2.1, hres.2.2.2.1,
              hres.2.2.2.2.1, hres.2.2.2.2.2.1, fun _ => hres.2.2.2.2.2.2⟩
          · rw [if_neg hstop] at heq
            by_cases hmax : m ≤ count + 1
            · rw [if_pos hmax] at heq
              injection heq with h
              subst h
              have hres := researchLoop_exit_spec env q m count acc it hlen hnum
                hnostop hexec hit (by omega) (Or.inr (by omega))
              exact ⟨hres.1, hres.2.1, fun _ => hres.2.2.1, hres.2.2.2.1,
                hres.2.2.2.2.1, hres.2.2.2.2.2.1, fun _ => hres.2.2.2.2.2.2⟩
            · rw [if_neg hmax] at heq
              have hitnum : it.iteration_number = count + 1 :=
                execute_iteration_ok_number _ _ _ _ hit
              have hlen' : (acc ++ [it]).length = count + 1 := by simp [hlen]
              have hnum' : ∀ i (h : i < (acc ++ [it]).length),
                  ((acc ++ [it]).get ⟨i, h⟩).iteration_number = i + 1 := by
                intro i h
                rcases get_snoc_cases acc it i h with ⟨h2, hg⟩ | ⟨hi, hg⟩
                · rw [hg]; exact hnum i h2
                · rw [hg, hitnum]; omega
              have hnostop' : ∀ i (h : i < (acc ++ [it]).length),
                  ¬ stopCond ((acc ++ [it]).get ⟨i, h⟩) := by
                intro i h
                rcases get_snoc_cases acc it i h with ⟨h2, hg⟩ | ⟨hi, hg⟩
                · rw [hg]; exact hnostop i h2
                · rw [hg]; exact hstop
              have hexec' : ∀ i (h : i < (acc ++ [it]).length),
                  execute_iteration (env.iters (i + 1)) q (i + 1) =
                    .ok ((acc ++ [it]).get ⟨i, h⟩) := by
                intro i h
                rcases get_snoc_cases acc it i h with ⟨h2, hg⟩ | ⟨hi, hg⟩
                · rw [hg]; exact hexec i h2
                · rw [hg, hi, hlen]; exact hit
              have hres := ih (count + 1) (acc ++ [it]) l heq (by omega) hlen'
                hnum' hnostop' hexec'
              have hfuel : 0 < fuel := by omega
              refine ⟨?_, hres.2.1, ?_, hres.2.2.2.1, hres.2.2.2.2.1,
                hres.2.2.2.2.2.1, fun _ => hres.2.2.2.2.2.2 hfuel⟩
              · have := hres.1
                simp only [List.length_append, List.length_singleton] at this
                omega
              · intro _
                have := hres.2.2.1 hfuel
                simp only [List.length_append, List.length_singleton] at this
                omega

/-! ## The full run -/

/-- Inversion for a successful run: the report's fields in terms of
the loop's iteration list and the final synthesis. -/
theorem research_ok_elim (env : RunEnv) (q : String) (m : Nat)
    (r : FinalResearchReport) (h : research env q m = .ok r) :
    ∃ iters fs,
      researchLoop env q m m 0 [] = .ok iters ∧
      create_final_synthesis env q iters = .ok fs ∧
      r = { original_query := q,
            iterations := iters,
            final_synthesis := fs,
            total_sources := (iters.map fun it => it.search_results.length).sum,
            confidence_score := fs.confidence_score } := by
  unfold research at h
  cases hl : researchLoop env q m m 0 [] with
  | error e => rw [hl] at h; exact absurd h (by simp)
  | ok iters =>
      rw [hl] at h
      simp only at h
      cases hf : create_final_synthesis env q iters with
      | error e => rw [hf] at h; exact absurd h (by simp)
      | ok fs =>
          rw [hf] at h
          simp only [Except.ok.injEq] at h
          exact ⟨iters, fs, rfl, hf, h.symm⟩

/-- Inversion for the final synthesis step: the returned dict is the
synthesizer's output over the collected relevant summaries, with the
two metadata keys added. -/
theorem create_final_synthesis_ok_elim (env : RunEnv) (q : String)
    (iters : List ResearchIteration) (fs : SynthDict)
    (h : create_final_synthesis env q iters = .ok fs) :
    ∃ syn, synthesize_research (env.finalSynth (collectAllSummaries iters)) = .ok syn ∧
      fs = { syn with total_iterations := some iters.length,
                      total_sources := some (collectAllSummaries iters).length } := by
  unfold create_final_synthesis at h
  simp only [] at h
  cases hs : synthesize_research (env.finalSynth (collectAllSummaries iters)) with
  | error e => rw [hs] at h; exact absurd h (by simp)
  | ok syn =>
      rw [hs] at h
      simp only [Except.ok.injEq] at h
      exact ⟨syn, rfl, h.symm⟩

/-- The loop invariant instantiated at the top call of a successful
run. -/
theorem research_ok_spec (env : RunEnv) (q : String) (m : Nat)
    (r : FinalResearchReport) (h : research env q m = .ok r) :
    r.iterations.length ≤ m ∧
    (0 < m → 0 < r.iterations.length) ∧
    (∀ i (hi : i < r.iterations.length),
      (r.iterations.get ⟨i, hi⟩).iteration_number = i + 1) ∧
    (∀ i (hi : i < r.iterations.length),
      execute_iteration (env.iters (i + 1)) q (i + 1) = .ok (r.iterations.get ⟨i, hi⟩)) ∧
    (∀ i (hi : i < r.iterations.length), i + 1 < r.iterations.length →
      ¬ stopCond (r.iterations.get ⟨i, hi⟩)) ∧
    (0 < m → ∀ (hne : r.iterations ≠ []),
      stopCond (r.iterations.getLast hne) ∨ r.iterations.length = m) := by
  obtain ⟨iters, fs, hl, hf, hr⟩ := research_ok_elim env q m r h
  have hspec := researchLoop_ok_spec env q m m 0 [] iters hl (by omega) rfl
    (fun i h => absurd h (by simp)) (fun i h => absurd h (by simp))
    (fun i h => absurd h (by simp))
  have hiters : r.iterations = iters := by rw [hr]
  rw [hiters]
  exact ⟨hspec.2.1, fun hm => by simpa using hspec.2.2.1 hm, hspec.2.2.2.1,
    hspec.2.2.2.2.1, hspec.2.2.2.2.2.1, fun hm => hspec.2.2.2.2.2.2 hm⟩

/-- The loop succeeds whenever no expansion call and no per-iteration
synthesis call raises, whatever the search and summarizer calls do. -/
theorem researchLoop_ok_of_ne_raised (env : RunEnv) (q : String) (m : Nat)
    (hexp : ∀ k, (env.iters k).expand ≠ ModelCall.raised)
    (hsyn : ∀ k xs, (env.iters k).synth xs ≠ ModelCall.raised) :
    ∀ (fuel count : Nat) (acc : List ResearchIteration),
      ∃ l, researchLoop env q m fuel count acc = .ok l := by
  intro fuel
  induction fuel with
  | zero => intro count acc; exact ⟨acc, rfl⟩
  | succ fuel ih =>
      intro count acc
      obtain ⟨it, hit⟩ := execute_iteration_ok_of_ne_raised (env.iters (count + 1))
        q (count + 1) (hexp _) (hsyn _)
      rw [researchLoop, hit]
      simp only
      by_cases hstop : stopCond it
      · rw [if_pos hstop]; exact ⟨_, rfl⟩
      · rw [if_neg hstop]
        by_cases hmax : m ≤ count + 1
        · rw [if_pos hmax]; exact ⟨_, rfl⟩
        · rw [if_neg hmax]; exact ih (count + 1) (acc ++ [it])

/-- The whole run succeeds whenever no expansion call and no synthesis
call (per-iteration or final) raises. -/
theorem research_ok_of_ne_raised (env : RunEnv) (q : String) (m : Nat)
    (hexp : ∀ k, (env.iters k).expand ≠ ModelCall.raised)
    (hsyn : ∀ k xs, (env.iters k).synth xs ≠ ModelCall.raised)
    (hfin : ∀ xs, env.finalSynth xs ≠ ModelCall.raised) :
    ∃ r, research env q m = .ok r := by
  obtain ⟨l, hl⟩ := researchLoop_ok_of_ne_raised env q m hexp hsyn m 0 []
  obtain ⟨d, hd⟩ := synthesize_research_ok_of_ne_raised
    (env.finalSynth (collectAllSummaries l)) (hfin _)
  unfold research create_final_synthesis
  rw [hl]
  simp only [hd]
  exact ⟨_, rfl⟩

/-! ## Concrete environments for witnesses and counterexamples -/

/-- A synthesis dict reporting the given confidence and
needs-more-research flag. -/
def synthAt (c : Int) (n : Bool) : SynthDict :=
  { confidence_score := c, needs_more_research := n }

/-- An environment whose iteration synthesizer reports confidence 4
with needs-more-research on iteration 1 and confidence 8 without on
every later iteration, with failing searches and expander fallback. -/
def sampleEnv : RunEnv where
  iters k :=
    { expand := .unparseable,
      search := fun _ => .error (),
      summarize := fun _ => .unparseable,
      synth := fun _ =>
        if k = 1 then .parsed (synthAt 4 true) else .parsed (synthAt 8 false) }
  finalSynth := fun _ => .parsed (synthAt 8 false)

/-- An environment whose query-expansion model call raises a transient
error on every iteration. -/
def raisingExpanderEnv : RunEnv where
  iters _ :=
    { expand := .raised,
      search := fun _ => .error (),
      summarize := fun _ => .unparseable,
      synth := fun _ => .parsed (synthAt 8 false) }
  finalSynth := fun _ => .parsed (synthAt 8 false)

/-- An environment whose per-iteration synthesis model call raises a
transient error (everything else degrades soft). -/
def raisingIterSynthEnv : RunEnv where
  iters _ :=
    { expand := .unparseable,
      search := fun _ => .error (),
      summarize := fun _ => .unparseable,
      synth := fun _ => .raised }
  finalSynth := fun _ => .parsed (synthAt 8 false)

/-- An environment whose final cross-iteration synthesis model call
raises a transient error (everything else succeeds or degrades). -/
def raisingFinalSynthEnv : RunEnv where
  iters _ :=
    { expand := .unparseable,
      search := fun _ => .error (),
      summarize := fun _ => .unparseable,
      synth := fun _ => .parsed (synthAt 8 false) }
  finalSynth := fun _ => .raised

/-- An environment where every synthesizer call (per-iteration and
final) returns unparseable output and everything else degrades. -/
def unparseableSynthEnv : RunEnv where
  iters _ :=
    { expand := .unparseable,
      search := fun _ => .error (),
      summarize := fun _ => .unparseable,
      synth := fun _ => .unparseable }
  finalSynth := fun _ => .unparseable

/-- Number of iterations of a run's report (0 for a raising run). -/
def reportIterationCount : Except Unit FinalResearchReport → Nat
  | .ok r => r.iterations.length
  | .error _ => 0

/-- The success value of an `Except`, with a default for the error
case. -/
def okOr {α : Type} (x : Except Unit α) (d : α) : α :=
  match x with
  | .ok v => v
  | .error _ => d

/-- The empty report, used as the `okOr` default. -/
def emptyReport : FinalResearchReport :=
  { original_query := "", iterations := [], final_synthesis := {},
    total_sources := 0, confidence_score := 0 }

/-- The empty iteration, used as the `okOr` default. -/
def emptyIteration : ResearchIteration :=
  { iteration_number := 0, queries := [], search_results := [],
    summaries := [], synthesis_result := {} }

/-- The report of the `sampleEnv` run with three allowed iterations. -/
def sampleReport : FinalResearchReport :=
  okOr (research sampleEnv "q" 3) emptyReport

/-- An environment with one expanded query, one hit, and one relevant
summary per iteration, stopping after the first iteration. -/
def richEnv : RunEnv where
  iters _ :=
    { expand := .parsed ["q1"],
      search := fun _ => .ok [{ url := "u", title := "t", content := "c" }],
      summarize := fun _ =>
        .parsed { url := "u", relevance_score := 9, is_relevant := true,
                  summary := "s", key_insights := ["k"] },
      synth := fun _ => .parsed (synthAt 8 false) }
  finalSynth := fun _ => .parsed (synthAt 9 false)

/-- The report of the `richEnv` run with three allowed iterations. -/
def richReport : FinalResearchReport :=
  okOr (research richEnv "q" 3) emptyReport

/-- The first iteration of the `sampleEnv` run. -/
def sampleIter : ResearchIteration :=
  okOr (execute_iteration (sampleEnv.iters 1) "q" 1) emptyIteration

/-! ## Claims -/

/-- C1: after each iteration the controller stops the loop iff the
iteration's synthesis confidence score is at least 7 with the
needs-more-research flag false, or the iteration count has reached
`max_iterations`; in particular, with per-iteration confidence scores
`[4, 8]`, needs-more-research `[true, false]` and `max_iterations = 3`,
the loop runs exactly 2 iterations and stops. -/
theorem research_stop_condition :
    (∀ (env : RunEnv) (q : String) (m : Nat) (r : FinalResearchReport),
       0 < m → research env q m = .ok r →
       (∀ i (hi : i < r.iterations.length), i + 1 < r.iterations.length →
          ¬ stopCond (r.iterations.get ⟨i, hi⟩)) ∧
       (∀ (hne : r.iterations ≠ []),
          stopCond (r.iterations.getLast hne) ∨ r.iterations.length = m) ∧
       r.iterations.length ≤ m) ∧
    reportIterationCount (research sampleEnv "q" 3) = 2 := by
  constructor
  · intro env q m r hm h
    have hs := research_ok_spec env q m r h
    exact ⟨hs.2.2.2.2.1, hs.2.2.2.2.2 hm, hs.1⟩
  · rfl

/-- Witness for C1: the `[4, 8]` / `[true, false]` run with
`max_iterations = 3` satisfies the stop characterization, and its
second (last) iteration satisfies the confidence branch. -/
theorem research_stop_condition_witness :
    (0 < 3 ∧ research sampleEnv "q" 3 = .ok sampleReport) ∧
    ((∀ i (hi : i < sampleReport.iterations.length),
        i + 1 < sampleReport.iterations.length →
        ¬ stopCond (sampleReport.iterations.get ⟨i, hi⟩)) ∧
     (∀ (hne : sampleReport.iterations ≠ []),
        stopCond (sampleReport.iterations.getLast hne) ∨
          sampleReport.iterations.length = 3) ∧
     sampleReport.iterations.length ≤ 3) :=
  ⟨⟨by decide, rfl⟩,
   research_stop_condition.1 sampleEnv "q" 3 sampleReport (by decide) rfl⟩

/-- C3: every successful run with `max_iterations ≥ 1` returns between
1 and `max_iterations` iterations, numbered contiguously from 1. -/
theorem research_iteration_count_bounds (env : RunEnv) (q : String) (m : Nat)
    (r : FinalResearchReport) (hm : 1 ≤ m) (h : research env q m = .ok r) :
    1 ≤ r.iterations.length ∧ r.iterations.length ≤ m ∧
    ∀ i (hi : i < r.iterations.length),
      (r.iterations.get ⟨i, hi⟩).iteration_number = i + 1 := by
  have hs := research_ok_spec env q m r h
  exact ⟨hs.2.1 hm, hs.1, hs.2.2.1⟩

/-- Witness for C3 at the `sampleEnv` run. -/
theorem research_iteration_count_bounds_witness :
    ((1 : Nat) ≤ 3 ∧ research sampleEnv "q" 3 = .ok sampleReport) ∧
    (1 ≤ sampleReport.iterations.length ∧ sampleReport.iterations.length ≤ 3 ∧
     ∀ i (hi : i < sampleReport.iterations.length),
       (sampleReport.iterations.get ⟨i, hi⟩).iteration_number = i + 1) :=
  ⟨⟨by decide, rfl⟩,
   research_iteration_count_bounds sampleEnv "q" 3 sampleReport (by decide) rfl⟩

/-- C6: every report's `total_sources` equals the sum over its
iterations of the length of that iteration's hit list. -/
theorem research_total_sources (env : RunEnv) (q : String) (m : Nat)
    (r : FinalResearchReport) (h : research env q m = .ok r) :
    r.total_sources = (r.iterations.map fun it => it.search_results.length).sum := by
  obtain ⟨iters, fs, hl, hf, hr⟩ := research_ok_elim env q m r h
  rw [hr]

/-- Witness for C6 at the `richEnv` run (one iteration, one hit). -/
theorem research_total_sources_witness :
    research richEnv "q" 3 = .ok richReport ∧
    richReport.total_sources =
      (richReport.iterations.map fun it => it.search_results.length).sum :=
  ⟨rfl, research_total_sources richEnv "q" 3 richReport rfl⟩

/-- C7: every summary stored in any iteration of a returned report is
marked relevant; summaries judged irrelevant (or produced without the
relevance flag, which defaults to false) are never stored. -/
theorem research_summaries_all_relevant (env : RunEnv) (q : String) (m : Nat)
    (r : FinalResearchReport) (h : research env q m = .ok r) :
    ∀ it ∈ r.iterations, ∀ s ∈ it.summaries, s.is_relevant = true := by
  have hs := research_ok_spec env q m r h
  intro it hit s hsm
  obtain ⟨⟨i, hi⟩, hg⟩ := List.mem_iff_get.mp hit
  have hex := hs.2.2.2.1 i hi
  rw [hg] at hex
  exact (execute_iteration_summaries _ _ _ _ hex s hsm).1

/-- Witness for C7 at the `richEnv` run (whose single iteration stores
one summary). -/
theorem research_summaries_all_relevant_witness :
    research richEnv "q" 3 = .ok richReport ∧
    ∀ it ∈ richReport.iterations, ∀ s ∈ it.summaries, s.is_relevant = true :=
  ⟨rfl, research_summaries_all_relevant richEnv "q" 3 richReport rfl⟩

/-- C10: every summary stored in any iteration of a returned report
has an empty `search_query` field — the expanded query that originated
it is never recorded. -/
theorem research_summaries_empty_search_query (env : RunEnv) (q : String)
    (m : Nat) (r : FinalResearchReport) (h : research env q m = .ok r) :
    ∀ it ∈ r.iterations, ∀ s ∈ it.summaries, s.search_query = "" := by
  have hs := research_ok_spec env q m r h
  intro it hit s hsm
  obtain ⟨⟨i, hi⟩, hg⟩ := List.mem_iff_get.mp hit
  have hex := hs.2.2.2.1 i hi
  rw [hg] at hex
  exact (execute_iteration_summaries _ _ _ _ hex s hsm).2

/-- Witness for C10 at the `richEnv` run. -/
theorem research_summaries_empty_search_query_witness :
    research richEnv "q" 3 = .ok richReport ∧
    ∀ it ∈ richReport.iterations, ∀ s ∈ it.summaries, s.search_query = "" :=
  ⟨rfl, research_summaries_empty_search_query richEnv "q" 3 richReport rfl⟩

/-- C4: when the final synthesizer call returns unparseable output
(and nothing raises), the run still returns a complete report whose
confidence score is 1 and whose final synthesis carries
`needs_more_research = true`; likewise a per-iteration synthesis parse
failure yields the degraded result (confidence 1, needs more research)
and the iteration still completes. -/
theorem research_degraded_synthesis :
    (∀ (env : RunEnv) (q : String) (m : Nat),
       (∀ k, (env.iters k).expand ≠ ModelCall.raised) →
       (∀ k xs, (env.iters k).synth xs ≠ ModelCall.raised) →
       (∀ xs, env.finalSynth xs = ModelCall.unparseable) →
       ∃ r, research env q m = .ok r ∧ r.confidence_score = 1 ∧
         r.final_synthesis.needs_more_research = true) ∧
    (∀ (ienv : IterEnv) (q : String) (k : Nat),
       ienv.expand ≠ ModelCall.raised →
       (∀ xs, ienv.synth xs = ModelCall.unparseable) →
       ∃ it, execute_iteration ienv q k = .ok it ∧
         it.synthesis_result.confidence_score = 1 ∧
         it.synthesis_result.needs_more_research = true) := by
  constructor
  · intro env q m hexp hsyn hfin
    obtain ⟨r, hr⟩ := research_ok_of_ne_raised env q m hexp hsyn
      (fun xs => by rw [hfin xs]; exact fun hc => ModelCall.noConfusion hc)
    obtain ⟨iters, fs, hl, hf, hrep⟩ := research_ok_elim env q m r hr
    obtain ⟨syn, hs, hfs⟩ := create_final_synthesis_ok_elim env q iters fs hf
    rw [hfin] at hs
    simp only [synthesize_research, Except.ok.injEq] at hs
    refine ⟨r, hr, ?_, ?_⟩
    · rw [hrep]; simp only
      rw [hfs, ← hs]
    · rw [hrep]; simp only
      rw [hfs, ← hs]
  · intro ienv q k hexp hsyn
    obtain ⟨it, hit⟩ := execute_iteration_ok_of_ne_raised ienv q k hexp
      (fun xs => by rw [hsyn xs]; exact fun hc => ModelCall.noConfusion hc)
    obtain ⟨qs, hq, hs, _⟩ := execute_iteration_ok_elim ienv q k it hit
    rw [hsyn] at hs
    simp only [synthesize_research, Except.ok.injEq] at hs
    exact ⟨it, hit, by rw [← hs], by rw [← hs]⟩

/-- Witness for C4 at the all-unparseable-synthesis environment. -/
theorem research_degraded_synthesis_witness :
    ((∀ k, (unparseableSynthEnv.iters k).expand ≠ ModelCall.raised) ∧
     (∀ k xs, (unparseableSynthEnv.iters k).synth xs ≠ ModelCall.raised) ∧
     (∀ xs, unparseableSynthEnv.finalSynth xs = ModelCall.unparseable)) ∧
    (∃ r, research unparseableSynthEnv "q" 3 = .ok r ∧ r.confidence_score = 1 ∧
       r.final_synthesis.needs_more_research = true) :=
  ⟨⟨fun _ hc => ModelCall.noConfusion hc, fun _ _ hc => ModelCall.noConfusion hc,
    fun _ => rfl⟩,
   research_degraded_synthesis.1 unparseableSynthEnv "q" 3
     (fun _ hc => ModelCall.noConfusion hc)
     (fun _ _ hc => ModelCall.noConfusion hc) (fun _ => rfl)⟩

/-- C5: when the query expander returns unparseable output for original
query `q`, the call (and hence the iteration) proceeds with exactly the
three fallback queries, in order. -/
theorem expander_fallback_queries :
    (∀ q : String, generate_queries ModelCall.unparseable q =
       .ok [q, "comprehensive analysis of " ++ q, "latest research on " ++ q]) ∧
    (∀ (ienv : IterEnv) (q : String) (k : Nat) (it : ResearchIteration),
       ienv.expand = ModelCall.unparseable →
       execute_iteration ienv q k = .ok it →
       it.queries =
         [q, "comprehensive analysis of " ++ q, "latest research on " ++ q]) := by
  refine ⟨fun q => rfl, ?_⟩
  intro ienv q k it hexp h
  obtain ⟨qs, hq, _, hit⟩ := execute_iteration_ok_elim ienv q k it h
  rw [hexp] at hq
  simp only [generate_queries, Except.ok.injEq] at hq
  rw [hit, ← hq]

/-- Witness for C5 at the `sampleEnv` run's first iteration. -/
theorem expander_fallback_queries_witness :
    ((sampleEnv.iters 1).expand = ModelCall.unparseable ∧
     execute_iteration (sampleEnv.iters 1) "q" 1 = .ok sampleIter) ∧
    sampleIter.queries =
      ["q", "comprehensive analysis of " ++ "q", "latest research on " ++ "q"] :=
  ⟨⟨rfl, rfl⟩, expander_fallback_queries.2 (sampleEnv.iters 1) "q" 1 sampleIter rfl rfl⟩

/-- A raising synthesis model call propagates out of the iteration
engine (only parse errors are caught around it). -/
theorem execute_iteration_error_of_synth_raised (ienv : IterEnv) (q : String)
    (k : Nat) (hexp : ienv.expand ≠ ModelCall.raised)
    (hsyn : ∀ xs, ienv.synth xs = ModelCall.raised) :
    execute_iteration ienv q k = .error () := by
  obtain ⟨qs, hq⟩ := generate_queries_ok_of_ne_raised ienv.expand q hexp
  simp only [execute_iteration, hq]
  rw [hsyn]
  rfl

/-- A raising query-expansion model call propagates out of the
iteration engine. -/
theorem execute_iteration_error_of_expand_raised (ienv : IterEnv) (q : String)
    (k : Nat) (hexp : ienv.expand = ModelCall.raised) :
    execute_iteration ienv q k = .error () := by
  simp only [execute_iteration, generate_queries, hexp]

/-- If the first iteration fails, the whole run fails: the loop's
first call is `execute_iteration` at iteration number 1 and its error
short-circuits `research`. -/
theorem research_error_of_first_iter_error (env : RunEnv) (q : String) (m : Nat)
    (hm : 0 < m) (hie : execute_iteration (env.iters 1) q 1 = .error ()) :
    research env q m = .error () := by
  obtain ⟨n, rfl⟩ : ∃ n, m = n + 1 := ⟨m - 1, by omega⟩
  unfold research
  have hl : researchLoop env q (n + 1) (n + 1) 0 [] = .error () := by
    rw [researchLoop]
    simp only [Nat.zero_add, hie]
  rw [hl]

/-- A raising final synthesis model call propagates out of the
top-level entry point: no run with such an environment returns a
report. -/
theorem research_error_of_final_synth_raised (env : RunEnv) (q : String)
    (m : Nat) (hfin : ∀ xs, env.finalSynth xs = ModelCall.raised) :
    research env q m = .error () := by
  unfold research
  cases hl : researchLoop env q m m 0 [] with
  | error e => cases e; rfl
  | ok iters =>
      simp only
      have hc : create_final_synthesis env q iters = .error () := by
        unfold create_final_synthesis
        simp only [hfin]
        rfl
      rw [hc]

/-- C2 counterexample: a transient (raising) failure of the
query-expansion model call is not degraded — it propagates out of the
iteration engine and out of the top-level entry point as an error. -/
theorem transient_expander_failure_propagates :
    research raisingExpanderEnv "q" 3 = .error () := rfl

/-- C2 (amended): transient failures of the search calls and of the
per-hit summarizer calls are degraded in place (empty hit list /
dropped summary) and never fail the run; but a raising query-expansion
or synthesis model call propagates out of the top-level entry point —
a run can only fail through those (or through missing credentials at
construction, outside this model). -/
theorem transient_failure_policy :
    (∀ (env : RunEnv) (q : String) (m : Nat),
       (∀ k, (env.iters k).expand ≠ ModelCall.raised) →
       (∀ k xs, (env.iters k).synth xs ≠ ModelCall.raised) →
       (∀ xs, env.finalSynth xs ≠ ModelCall.raised) →
       ∃ r, research env q m = .ok r) ∧
    search_single_query (.error ()) = [] ∧
    (∀ (summarize : String × String × String → ModelCall SummaryDict)
       (triples : List (String × String × String)),
       (∀ t ∈ triples, summarize t = ModelCall.raised) →
       batch_summarize summarize triples = []) ∧
    (∀ (ienv : IterEnv) (q : String) (k : Nat),
       ienv.expand ≠ ModelCall.raised →
       (∀ xs, ienv.synth xs = ModelCall.raised) →
       execute_iteration ienv q k = .error ()) ∧
    (∀ (env : RunEnv) (q : String) (m : Nat),
       0 < m →
       (env.iters 1).expand ≠ ModelCall.raised →
       (∀ xs, (env.iters 1).synth xs = ModelCall.raised) →
       research env q m = .error ()) ∧
    (∀ (env : RunEnv) (q : String) (m : Nat),
       (∀ xs, env.finalSynth xs = ModelCall.raised) →
       research env q m = .error ()) ∧
    (∀ (env : RunEnv) (q : String) (m : Nat),
       0 < m →
       (env.iters 1).expand = ModelCall.raised →
       research env q m = .error ()) := by
  refine ⟨research_ok_of_ne_raised, rfl, ?_, execute_iteration_error_of_synth_raised,
    ?_, research_error_of_final_synth_raised, ?_⟩
  · intro summarize triples hall
    unfold batch_summarize
    rw [List.filterMap_eq_nil]
    intro t ht
    rw [hall t ht]
  · intro env q m hm hexp hsyn
    exact research_error_of_first_iter_error env q m hm
      (execute_iteration_error_of_synth_raised _ _ _ hexp hsyn)
  · intro env q m hm hexp
    exact research_error_of_first_iter_error env q m hm
      (execute_iteration_error_of_expand_raised _ _ _ hexp)

/-- Witness for the amended C2: the `richEnv` run (no raising
expansion/synthesis call) succeeds; a batch whose every summarizer
call raises produces no summaries; and runs whose per-iteration
synthesis, final synthesis, or query-expansion model call raises all
return an error. -/
theorem transient_failure_policy_witness :
    ((∀ k, (richEnv.iters k).expand ≠ ModelCall.raised) ∧
     (∀ k xs, (richEnv.iters k).synth xs ≠ ModelCall.raised) ∧
     (∀ xs, richEnv.finalSynth xs ≠ ModelCall.raised) ∧
     (∀ t ∈ [("a", "b", "c")],
        (fun _ => ModelCall.raised : String × String × String → ModelCall SummaryDict) t =
          ModelCall.raised) ∧
     (0 < 3 ∧
      (raisingIterSynthEnv.iters 1).expand ≠ ModelCall.raised ∧
      (∀ xs, (raisingIterSynthEnv.iters 1).synth xs = ModelCall.raised) ∧
      (∀ xs, raisingFinalSynthEnv.finalSynth xs = ModelCall.raised) ∧
      (raisingExpanderEnv.iters 1).expand = ModelCall.raised)) ∧
    (∃ r, research richEnv "q" 3 = .ok r) ∧
    batch_summarize (fun _ => ModelCall.raised) [("a", "b", "c")] = [] ∧
    execute_iteration (raisingIterSynthEnv.iters 1) "q" 1 = .error () ∧
    research raisingIterSynthEnv "q" 3 = .error () ∧
    research raisingFinalSynthEnv "q" 3 = .error () ∧
    research raisingExpanderEnv "q" 5 = .error () :=
  ⟨⟨fun _ hc => ModelCall.noConfusion hc, fun _ _ hc => ModelCall.noConfusion hc,
    fun _ hc => ModelCall.noConfusion hc, fun _ _ => rfl,
    by decide, fun hc => ModelCall.noConfusion hc, fun _ => rfl, fun _ => rfl, rfl⟩,
   transient_failure_policy.1 richEnv "q" 3
     (fun _ hc => ModelCall.noConfusion hc)
     (fun _ _ hc => ModelCall.noConfusion hc)
     (fun _ hc => ModelCall.noConfusion hc),
   transient_failure_policy.2.2.1 (fun _ => ModelCall.raised) [("a", "b", "c")]
     (fun _ _ => rfl),
   transient_failure_policy.2.2.2.1 (raisingIterSynthEnv.iters 1) "q" 1
     (fun hc => ModelCall.noConfusion hc) (fun _ => rfl),
   transient_failure_policy.2.2.2.2.1 raisingIterSynthEnv "q" 3 (by decide)
     (fun hc => ModelCall.noConfusion hc) (fun _ => rfl),
   transient_failure_policy.2.2.2.2.2.1 raisingFinalSynthEnv "q" 3 (fun _ => rfl),
   transient_failure_policy.2.2.2.2.2.2 raisingExpanderEnv "q" 5 (by decide) rfl⟩

/-- C8: within each iteration the synthesizer is called on all
summaries produced that iteration (the unfiltered batch output), and
the iteration record stores their relevance-filtered subset; the final
cross-iteration synthesis is called on exactly the relevant summaries
retained in the iteration records, each tagged with its source
iteration number. -/
theorem synthesizer_inputs :
    (∀ (ienv : IterEnv) (q : String) (k : Nat) (it : ResearchIteration),
       execute_iteration ienv q k = .ok it →
       ∃ qs, generate_queries ienv.expand q = .ok qs ∧
         synthesize_research (ienv.synth (producedSummaries ienv qs)) =
           .ok it.synthesis_result ∧
         it.summaries = summariesFrom (producedSummaries ienv qs)) ∧
    (∀ (env : RunEnv) (q : String) (m : Nat) (r : FinalResearchReport),
       research env q m = .ok r →
       ∃ syn, synthesize_research (env.finalSynth (collectAllSummaries r.iterations)) =
           .ok syn ∧
         r.final_synthesis =
           { syn with total_iterations := some r.iterations.length,
                      total_sources := some (collectAllSummaries r.iterations).length }) := by
  constructor
  · intro ienv q k it h
    obtain ⟨qs, hq, hs, hit⟩ := execute_iteration_ok_elim ienv q k it h
    exact ⟨qs, hq, hs, by rw [hit]⟩
  · intro env q m r h
    obtain ⟨iters, fs, hl, hf, hr⟩ := research_ok_elim env q m r h
    obtain ⟨syn, hs, hfs⟩ := create_final_synthesis_ok_elim env q iters fs hf
    have hiters : r.iterations = iters := by rw [hr]
    have hfin : r.final_synthesis = fs := by rw [hr]
    rw [hiters, hfin]
    exact ⟨syn, hs, hfs⟩

/-- Witness for C8 at the `richEnv` run and its first iteration. -/
theorem synthesizer_inputs_witness :
    (execute_iteration (richEnv.iters 1) "q" 1 =
       .ok (okOr (execute_iteration (richEnv.iters 1) "q" 1) emptyIteration) ∧
     research richEnv "q" 3 = .ok richReport) ∧
    (∃ qs, generate_queries (richEnv.iters 1).expand "q" = .ok qs ∧
       synthesize_research ((richEnv.iters 1).synth
           (producedSummaries (richEnv.iters 1) qs)) =
         .ok (okOr (execute_iteration (richEnv.iters 1) "q" 1)
            emptyIteration).synthesis_result ∧
       (okOr (execute_iteration (richEnv.iters 1) "q" 1) emptyIteration).summaries =
         summariesFrom (producedSummaries (richEnv.iters 1) qs)) ∧
    (∃ syn, synthesize_research (richEnv.finalSynth
         (collectAllSummaries richReport.iterations)) = .ok syn ∧
       richReport.final_synthesis =
         { syn with total_iterations := some richReport.iterations.length,
                    total_sources :=
                      some (collectAllSummaries richReport.iterations).length }) :=
  ⟨⟨rfl, rfl⟩,
   synthesizer_inputs.1 (richEnv.iters 1) "q" 1
     (okOr (execute_iteration (richEnv.iters 1) "q" 1) emptyIteration) rfl,
   synthesizer_inputs.2 richEnv "q" 3 richReport rfl⟩

/-! ## Report serialization (`FinalResearchReport.to_dict`) -/

/-- The content truncation applied by `to_dict` to each serialized
search hit: `sr.content[:500] + "..." if len(sr.content) > 500 else
sr.content` (Python string slicing and `len` count code points, as
`String.take` and `String.length` do). -/
def truncateContent (s : String) : String :=
  if 500 < s.length then s.take 500 ++ "..." else s

/-- The dict serialized for one search hit. -/
structure SearchResultDict where
  url : String
  title : String
  content : String
  published_date : Option String
  score : Option Int
deriving DecidableEq

/-- The serialization of one search hit: all fields copied, the
content truncated. -/
def searchResult_to_dict (sr : SearchResult) : SearchResultDict :=
  { url := sr.url, title := sr.title, content := truncateContent sr.content,
    published_date := sr.published_date, score := sr.score }

/-- The dict serialized for one iteration.  A summary's dict copies
all six `SummaryResult` fields verbatim, so it is represented by
`SummaryResult` itself; the synthesis dict is embedded as is. -/
structure IterationDict where
  iteration_number : Nat
  queries : List String
  search_results : List SearchResultDict
  summaries : List SummaryResult
  synthesis_result : SynthDict
deriving DecidableEq

/-- The serialization of one iteration. -/
def iteration_to_dict (it : ResearchIteration) : IterationDict :=
  { iteration_number := it.iteration_number,
    queries := it.queries,
    search_results := it.search_results.map searchResult_to_dict,
    summaries := it.summaries.map fun s =>
      { url := s.url, relevance_score := s.relevance_score,
        is_relevant := s.is_relevant, summary := s.summary,
        key_insights := s.key_insights, search_query := s.search_query },
    synthesis_result := it.synthesis_result }

/-- The dict serialized for the whole report. -/
structure ReportDict where
  original_query : String
  iterations : List IterationDict
  final_synthesis : SynthDict
  total_sources : Nat
  confidence_score : Int
deriving DecidableEq

/-- `FinalResearchReport.to_dict`. -/
def to_dict (r : FinalResearchReport) : ReportDict :=
  { original_query := r.original_query,
    iterations := r.iterations.map iteration_to_dict,
    final_synthesis := r.final_synthesis,
    total_sources := r.total_sources,
    confidence_score := r.confidence_score }

/-- A 501-character string, exceeding the truncation bound. -/
def longContent : String := String.mk (List.replicate 501 (Char.ofNat 97))

/-- C9: serialization preserves the original query, the number of
iterations and the confidence score exactly, each serialized hit's
content is `truncateContent` of its content, and `truncateContent` is
a fixed deterministic function: the identity on strings of at most 500
characters, and the first 500 characters plus `"..."` beyond that. -/
theorem to_dict_preservation :
    (∀ r : FinalResearchReport,
       (to_dict r).original_query = r.original_query ∧
       (to_dict r).iterations.length = r.iterations.length ∧
       (to_dict r).confidence_score = r.confidence_score) ∧
    (∀ sr : SearchResult,
       (searchResult_to_dict sr).content = truncateContent sr.content) ∧
    (∀ s : String, s.length ≤ 500 → truncateContent s = s) ∧
    (∀ s : String, 500 < s.length → truncateContent s = s.take 500 ++ "...") := by
  refine ⟨fun r => ⟨rfl, ?_, rfl⟩, fun sr => rfl, ?_, ?_⟩
  · simp [to_dict]
  · intro s hs
    unfold truncateContent
    rw [if_neg (by omega)]
  · intro s hs
    unfold truncateContent
    rw [if_pos hs]

set_option maxRecDepth 4000 in
/-- Witness for C9: truncation at a 3-character and a 501-character
string. -/
theorem to_dict_preservation_witness :
    ("abc".length ≤ 500 ∧ 500 < longContent.length) ∧
    truncateContent "abc" = "abc" ∧
    truncateContent longContent = longContent.take 500 ++ "..." :=
  ⟨⟨by decide, by decide⟩,
   to_dict_preservation.2.2.1 "abc" (by decide),
   to_dict_preservation.2.2.2 longContent (by decide)⟩

end DeepResearch
